import Mathlib

/-!
# Verification of the microdote note-to-card compilation and reconciliation engine

Shallow embedding of the Go sources of the `microdote` flashcards repository:

* the card compiler and renderers
  (`generateCardsFromNote`, `renderTemplate`, `renderTemplateWithCloze`,
  `renderCloze`, `extractClozeOrdinals` in the main package),
* the per-note card regeneration of `regenerateCardsForNoteType` (server.go),
* `FindDuplicateNotes` / the `CheckDuplicate` handler,
* the `RemoveField` handler's pure mutation of a note type,
* `Collection.AddNote`.

Strings are modelled as `List Char`.  Go's `regexp` package is RE2 with
leftmost-first (Perl-like) submatch semantics; the two regular expressions of
the source,

* fieldTokenRe = \x7b\x7b([^\x7d]+)\x7d\x7d
* clozeRe      = \x7b\x7bc(\d+)::(.*?)(?:::([^\x7d]*))?\x7d\x7d

are embedded as deterministic character-level matchers (`matchField`,
`matchCloze`); the determinism argument is given at each matcher.
`ReplaceAllStringFunc` and `FindAllStringSubmatch` are embedded as the fuel
based scanner `goScan` (fuel = length of the remaining input always
suffices because every match consumes at least one character).
-/

set_option linter.unusedVariables false

namespace Microdote

/-- Strings are lists of characters. -/
abbrev Str := List Char

/-- The left brace character. -/
def lb : Char := '\x7b'

/-- The right brace character. -/
def rb : Char := '\x7d'

/-! ## Go library primitives -/

/-- Go `unicode.IsSpace`: the White_Space code points. -/
def goIsSpace (c : Char) : Bool :=
  c.toNat ∈ [9, 10, 11, 12, 13, 32, 0x85, 0xA0, 0x1680,
    0x2000, 0x2001, 0x2002, 0x2003, 0x2004, 0x2005, 0x2006, 0x2007,
    0x2008, 0x2009, 0x200A, 0x2028, 0x2029, 0x202F, 0x205F, 0x3000]

/-- Go `strings.TrimSpace`: drop leading and trailing white space. -/
def trimSpace (s : Str) : Str :=
  ((s.dropWhile goIsSpace).reverse.dropWhile goIsSpace).reverse

/-- ASCII fragment of Go `strings.ToLower`.  The source applies full Unicode
simple case mapping; every claim-relevant input is ASCII, where the two
functions agree. -/
def goToLower (s : Str) : Str :=
  s.map fun c => if 'A' ≤ c ∧ c ≤ 'Z' then Char.ofNat (c.toNat + 32) else c

/-- Largest value of Go `int64` / `int` on a 64-bit build. -/
def maxInt64 : Nat := 9223372036854775807

/-- Value of a decimal digit string (the `\d+` capture is always digits). -/
def digitsToNat (ds : Str) : Nat :=
  ds.foldl (fun n c => 10 * n + (c.toNat - 48)) 0

/-- Go `strconv.Atoi` on a digit capture: `none` models `err != nil`
(out of `int` range). -/
def atoiOrd (ds : Str) : Option Nat :=
  if digitsToNat ds ≤ maxInt64 then some (digitsToNat ds) else none

/-- Go `strconv.Atoi` with the error ignored: on range error Atoi returns the
clamped maximal value (`renderCloze` ignores the error). -/
def atoiClamp (ds : Str) : Nat :=
  min (digitsToNat ds) maxInt64

/-- A Go `map[string]string`, in insertion order; keys are unique in a map. -/
abbrev FieldMap := List (Str × Str)

/-- Go map lookup `m[k]` on a string-valued map: zero value `""` on a miss. -/
def fieldsGet (fm : FieldMap) (k : Str) : Str :=
  match fm.find? (fun p => p.1 = k) with
  | some p => p.2
  | none => []

/-- Go map lookup with the `ok` flag: `v, ok := m[k]`. -/
def fieldsFind (fm : FieldMap) (k : Str) : Option Str :=
  (fm.find? (fun p => p.1 = k)).map (fun p => p.2)

/-! ## The two regular expressions as deterministic matchers

`fieldTokenRe` at a given start position: the token is `\x7b\x7b`, then a
maximal nonempty run of non-`\x7d` characters (the capture cannot contain
`\x7d`, so greediness is deterministic: a shorter run would end before a
non-`\x7d` character, where `\x7d\x7d` cannot match), then `\x7d\x7d`. -/

/-- Match `fieldTokenRe` anchored at the head of `s`; on success returns the
capture group and the remainder of the string after the match. -/
def matchField (s : Str) : Option (Str × Str) :=
  match s with
  | c₁ :: c₂ :: rest =>
    let grp := rest.takeWhile (fun c => c ≠ rb)
    let rest' := rest.drop grp.length
    if c₁ = lb ∧ c₂ = lb ∧ grp ≠ [] ∧ rest'.take 2 = [rb, rb] then
      some (grp, rest'.drop 2)
    else none
  | _ => none

/-- One split position of the lazy `(.*?)` answer of `clozeRe`: the engine
first tries the optional hint group `(?:::([^\x7d]*))?` present (`::`, then
a maximal run of non-`\x7d`, then `\x7d\x7d`), then absent (`\x7d\x7d`
directly); the two alternatives start with different characters, so at most
one applies. -/
def clozeTryClose (s : Str) : Option (Str × Str) :=
  if s.take 2 = [':', ':'] then
    let t := s.drop 2
    let h := t.takeWhile (fun d => d ≠ rb)
    let t' := t.drop h.length
    if t'.take 2 = [rb, rb] then some (h, t'.drop 2) else none
  else if s.take 2 = [rb, rb] then some ([], s.drop 2) else none

/-- The lazy body of `clozeRe` after `\x7b\x7bc\d+::`: the non-greedy
`(.*?)` answer grows one character at a time (never across a newline, since
`.` does not match `\n`), stopping at the first split where the rest of the
pattern closes.  Returns `(answer, hint, rest)`; an absent or empty hint are
both `[]`, exactly as Go's `FindStringSubmatch` reports `""` for a
non-participating group. -/
def clozeBody : Str → Option (Str × Str × Str)
  | [] => none
  | c :: cs =>
    match clozeTryClose (c :: cs) with
    | some (h, rest) => some ([], h, rest)
    | none =>
      if c ≠ '\n' then (clozeBody cs).map (fun r => (c :: r.1, r.2)) else none

/-- Match `clozeRe` anchored at the head of `s`; on success returns the
captures (digits, answer, hint) and the remainder. -/
def matchCloze (s : Str) : Option ((Str × Str × Str) × Str) :=
  match s with
  | c₁ :: c₂ :: c₃ :: rest =>
    let ds := rest.takeWhile Char.isDigit
    let rest' := rest.drop ds.length
    if c₁ = lb ∧ c₂ = lb ∧ c₃ = 'c' ∧ ds ≠ [] ∧ rest'.take 2 = [':', ':'] then
      (clozeBody (rest'.drop 2)).map (fun r => ((ds, r.1, r.2.1), r.2.2))
    else none
  | _ => none

/-! ## The generic scanner

`goScan` embeds both `Regexp.ReplaceAllStringFunc` and
`Regexp.FindAllStringSubmatch`: scan left to right, at each position try the
anchored matcher; on a match emit `onMatch` of the captures and resume after
the match (replacements are never rescanned), otherwise emit `onChar` of the
head character and advance one position.  `fuel` bounds the recursion; any
`fuel ≥ length` gives the same result (`goScan_congr_fuel`). -/
def goScan {γ β : Type} (m : Str → Option (γ × Str)) (onMatch : γ → List β)
    (onChar : Char → List β) (onEnd : Str → List β) : Nat → Str → List β
  | _, [] => []
  | 0, s => onEnd s
  | fuel + 1, c :: cs =>
    match m (c :: cs) with
    | some (g, r) => onMatch g ++ goScan m onMatch onChar onEnd fuel r
    | none => onChar c ++ goScan m onMatch onChar onEnd fuel cs

/-! ## The renderers (Note → Card generation, part_001) -/

/-- The callback of `renderTemplate` (part_001 lines 360-380): trim the
capture; a `type:`-led key renders a fixed placeholder; otherwise a plain
field lookup with the empty string on a miss.  (The source re-runs
`FindStringSubmatch` on the matched token, which reproduces the captures of
the original match; its `len(m) != 2` guard is dead because a full match
always yields a two-element submatch slice.) -/
def goFieldCallback (fm : FieldMap) (grp : Str) : Str :=
  let key := trimSpace grp
  if key.take 5 = ("type:").data then
    let fieldName := trimSpace (key.drop 5)
    let expected := fieldsGet fm fieldName
    if expected = [] then ("[type: empty]").data
    else ("[type your answer here]").data
  else fieldsGet fm key

/-- Model of `renderTemplate(tmpl, fields)` of part_001: replace every `fieldTokenRe`
token via `goFieldCallback`. -/
def renderTemplate (tmpl : Str) (fm : FieldMap) : Str :=
  goScan matchField (goFieldCallback fm) (fun c => [c]) id tmpl.length tmpl

/-- The callback of `renderCloze` (part_001 lines 425-452):
`ord` is `strconv.Atoi` of the digit capture with the error ignored. -/
def goClozeCallback (targetOrdinal : Nat) (reveal : Bool)
    (g : Str × Str × Str) : Str :=
  let ord := atoiClamp g.1
  let answer := g.2.1
  let hint := g.2.2
  if reveal then
    if ord = targetOrdinal then ("**").data ++ answer ++ ("**").data
    else answer
  else
    if ord = targetOrdinal then
      if trimSpace hint ≠ [] then '[' :: hint ++ [']']
      else ("[...]").data
    else answer

/-- Model of `renderCloze(text, targetOrdinal, reveal)` of part_001. -/
def renderCloze (text : Str) (targetOrdinal : Nat) (reveal : Bool) : Str :=
  goScan matchCloze (goClozeCallback targetOrdinal reveal) (fun c => [c]) id
    text.length text

/-- The callback of `renderTemplateWithCloze` (part_001 lines 385-396):
the key `cloze:Text` renders the cloze of the `Text` field, anything else is
a plain field lookup. -/
def goClozeTplCallback (fm : FieldMap) (targetOrdinal : Nat) (reveal : Bool)
    (grp : Str) : Str :=
  let key := trimSpace grp
  if key = ("cloze:Text").data then
    renderCloze (fieldsGet fm ("Text").data) targetOrdinal reveal
  else fieldsGet fm key

/-- Model of `renderTemplateWithCloze(tmpl, fields, targetOrdinal, reveal)` of
part_001. -/
def renderTemplateWithCloze (tmpl : Str) (fm : FieldMap)
    (targetOrdinal : Nat) (reveal : Bool) : Str :=
  goScan matchField (goClozeTplCallback fm targetOrdinal reveal)
    (fun c => [c]) id tmpl.length tmpl

/-! ## extractClozeOrdinals -/

/-- Model of `FindAllStringSubmatch(clozeRe, text, -1)`: the capture triples of all
non-overlapping leftmost matches. -/
def clozeFindAll (text : Str) : List (Str × Str × Str) :=
  goScan matchCloze (fun g => [g]) (fun _ => []) (fun _ => []) text.length text

/-- Insert into a strictly ascending list of ordinals, collapsing
duplicates; models the `seen` set plus the final `sort.Ints`. -/
def insertOrd (n : Nat) : List Nat → List Nat
  | [] => [n]
  | m :: ms =>
    if n < m then n :: m :: ms
    else if n = m then m :: ms
    else m :: insertOrd n ms

/-- Sorted deduplication: the distinct values in ascending order. -/
def sortDedup (l : List Nat) : List Nat :=
  l.foldl (fun acc n => insertOrd n acc) []

/-- The ordinal a `clozeRe` match contributes to the `seen` set:
`n, err := strconv.Atoi(m[1]); if err != nil || n <= 0 { continue }`. -/
def clozeOrdOf (g : Str × Str × Str) : Option Nat :=
  match atoiOrd g.1 with
  | some n => if 0 < n then some n else none
  | none => none

/-- Model of `extractClozeOrdinals(text)` of part_001 lines 400-419: the distinct
valid positive ordinals of all cloze markers, ascending. -/
def extractClozeOrdinals (text : Str) : List Nat :=
  sortDedup ((clozeFindAll text).filterMap clozeOrdOf)

/-! ## Data model (part_001, extended by server.go)

`CardTemplate` as declared in part_001 plus the `DeckOverride`,
`BrowserQFmt`, `BrowserAFmt` fields that server.go reads and writes on it
(their declaration is in a source file not in the snapshot; no function in
the snapshot consults them during card generation). -/

structure CardTemplate where
  name : Str
  qFmt : Str
  aFmt : Str
  styling : Str
  ifFieldNonEmpty : Str
  isCloze : Bool
  deckOverride : Str
  browserQFmt : Str
  browserAFmt : Str
deriving DecidableEq, Repr

/-- Model of `NoteType` of part_001, plus server.go's `SortFieldIndex`
(`FieldOptions` is display metadata and irrelevant to every claim). -/
structure NoteType where
  name : Str
  fields : List Str
  templates : List CardTemplate
  sortFieldIndex : Nat
deriving DecidableEq, Repr

/-- Model of `Note` of part_001; times are abstract instants. -/
structure Note where
  id : Int
  type : Str
  fieldMap : FieldMap
  tags : List Str
  usn : Int
  createdAt : Int
  modifiedAt : Int
deriving DecidableEq, Repr

/-- Model of `Card` of part_001.  The FSRS scheduling state is opaque to this core;
it is modelled by the single value this engine ever writes into it, the
instant `newDueNow(now)` was called with. -/
structure Card where
  id : Int
  noteId : Int
  deckId : Int
  templateName : Str
  ordinal : Nat
  front : Str
  back : Str
  srs : Int
  flag : Int
  marked : Bool
  suspended : Bool
  usn : Int
deriving DecidableEq, Repr

/-! ## generateCardsFromNote (part_001 lines 304-351) -/

/-- The cards one template contributes for a note (one iteration of the
template loop of `generateCardsFromNote`).  Drafts carry the Go zero value
`0` as `id` and `usn`; `SRS = newDueNow(now)`. -/
def cardsForTemplate (t : CardTemplate) (n : Note) (deckID : Int)
    (now : Int) : List Card :=
  if t.ifFieldNonEmpty ≠ [] ∧ trimSpace (fieldsGet n.fieldMap t.ifFieldNonEmpty) = [] then
    []
  else if t.isCloze then
    (extractClozeOrdinals (fieldsGet n.fieldMap ("Text").data)).map fun ord =>
      { id := 0, noteId := n.id, deckId := deckID, templateName := t.name,
        ordinal := ord,
        front := renderTemplateWithCloze t.qFmt n.fieldMap ord false,
        back := renderTemplateWithCloze t.aFmt n.fieldMap ord true,
        srs := now, flag := 0, marked := false, suspended := false, usn := 0 }
  else
    [{ id := 0, noteId := n.id, deckId := deckID, templateName := t.name,
       ordinal := 0,
       front := renderTemplate t.qFmt n.fieldMap,
       back := renderTemplate t.aFmt n.fieldMap,
       srs := now, flag := 0, marked := false, suspended := false, usn := 0 }]

/-- The template loop of `generateCardsFromNote` over an explicit template
list. -/
def cardsForTemplates (ts : List CardTemplate) (n : Note) (deckID : Int)
    (now : Int) : List Card :=
  ts.flatMap (fun t => cardsForTemplate t n deckID now)

/-- Model of `generateCardsFromNote(nt, n, deckID, now)` of part_001 (the returned
error is always nil). -/
def generateCardsFromNote (nt : NoteType) (n : Note) (deckID : Int)
    (now : Int) : List Card :=
  cardsForTemplates nt.templates n deckID now

/-! ## The SQLite card store (revlog_test.go, migrations.go)

A store is the list of rows of the `cards` table in insertion order;
`cards.id` is `INTEGER PRIMARY KEY`, so an `INSERT` with an already present
id violates the unique rowid and fails (the caller logs and continues). -/

/-- Model of `CreateCard`: insert, failing (store unchanged) on a duplicate id. -/
def createCard (store : List Card) (c : Card) : List Card :=
  if store.any (fun r => r.id = c.id) then store else store ++ [c]

/-- Model of `UpdateCard`: `UPDATE cards SET ... WHERE id = ?` writes every column of
the matching row. -/
def updateCard (store : List Card) (c : Card) : List Card :=
  store.map (fun r => if r.id = c.id then c else r)

/-- Model of `DeleteCard`: `DELETE FROM cards WHERE id = ?`. -/
def deleteCard (store : List Card) (i : Int) : List Card :=
  store.filter (fun r => r.id ≠ i)

/-- Model of `GetCardsByNote`: the rows with the note's id, in insertion order. -/
def getCardsByNote (store : List Card) (noteID : Int) : List Card :=
  store.filter (fun c => c.noteId = noteID)

/-! ## Per-note regeneration (server.go regenerateCardsForNoteType,
lines 1025-1086)

The body of the per-note loop.  The Go map `existingCardMap` keyed by
`"templateName:ordinal"` is modelled as an association list keyed by the
pair (the `%s:%d` key is injective in the pair); Go iterates map entries in
an unspecified order, but the final deletions commute, so list order is
faithful. -/

/-- The identity key of a card: `fmt.Sprintf("%s:%d", TemplateName, Ordinal)`. -/
def cardKey (c : Card) : Str × Nat := (c.templateName, c.ordinal)

/-- The association-list model of the Go map. -/
abbrev CardMap := List ((Str × Nat) × Card)

/-- Map read. -/
def lookupKV (m : CardMap) (k : Str × Nat) : Option Card :=
  (m.find? (fun p => p.1 = k)).map (fun p => p.2)

/-- Map write (overwrites an existing key). -/
def insertKV (m : CardMap) (k : Str × Nat) (v : Card) : CardMap :=
  (k, v) :: m.filter (fun p => p.1 ≠ k)

/-- Map delete. -/
def eraseKV (m : CardMap) (k : Str × Nat) : CardMap :=
  m.filter (fun p => p.1 ≠ k)

/-- Accumulated effects of one per-note regeneration pass. -/
structure RegenResult where
  store : List Card
  toCreate : List Card
  toUpdate : List Card
  toDelete : List Card
deriving DecidableEq, Repr

/-- One iteration of the `for _, newCard := range newCards` loop: a key hit
copies the draft's front/back into the existing card and issues
`UpdateCard`; a miss issues `CreateCard` with the draft as is. -/
def regenStep (st : List Card × CardMap × List Card × List Card)
    (draft : Card) : List Card × CardMap × List Card × List Card :=
  match lookupKV st.2.1 (cardKey draft) with
  | some ex =>
    let upd := { ex with front := draft.front, back := draft.back }
    (updateCard st.1 upd, eraseKV st.2.1 (cardKey draft),
     st.2.2.1, st.2.2.2 ++ [upd])
  | none =>
    (createCard st.1 draft, st.2.1, st.2.2.1 ++ [draft], st.2.2.2)

/-- The deck id the regeneration loop passes to the compiler: the deck of
the note's first existing card, else the default deck 1. -/
def regenDeckID (store : List Card) (note : Note) : Int :=
  match getCardsByNote store note.id with
  | [] => 1
  | c :: _ => c.deckId

/-- The drafts compiled for the note during regeneration. -/
def regenDrafts (nt : NoteType) (note : Note) (store : List Card)
    (now : Int) : List Card :=
  generateCardsFromNote nt note (regenDeckID store note) now

/-- Model of `existingCardMap`: index a card list by identity key (later duplicates
overwrite earlier ones, as in the Go map). -/
def buildMap (existing : List Card) : CardMap :=
  existing.foldl (fun m c => insertKV m (cardKey c) c) []

/-- The body of the per-note loop of `regenerateCardsForNoteType`:
index the existing cards by key, reconcile the drafts against the index,
then delete every card left in the index. -/
def regenerateNote (nt : NoteType) (note : Note) (store : List Card)
    (now : Int) : RegenResult :=
  let existing := getCardsByNote store note.id
  let drafts := regenDrafts nt note store now
  let m₀ := buildMap existing
  let st := drafts.foldl regenStep (store, m₀, [], [])
  let store₂ := st.2.1.foldl (fun s kv => deleteCard s kv.2.id) st.1
  { store := store₂, toCreate := st.2.2.1, toUpdate := st.2.2.2,
    toDelete := st.2.1.map (fun kv => kv.2) }

/-! ## Duplicate detection (server.go CheckDuplicate,
revlog_test.go FindDuplicateNotes) -/

/-- The `NoteBrief` rows of server.go. -/
structure NoteBrief where
  id : Int
  typeId : Str
  fieldVals : FieldMap
deriving DecidableEq, Repr

/-- Model of `noteHasCardInDeck` of revlog_test.go. -/
def noteHasCardInDeck (cards : List Card) (noteID deckID : Int) : Bool :=
  cards.any (fun c => c.noteId = noteID ∧ c.deckId = deckID)

/-- Model of `FindDuplicateNotes(collectionID, fieldName, value, deckID)` of
revlog_test.go lines 698-745, over the collection's notes and card rows
(rows whose stored field data fails to parse are skipped by the source and
are not representable here, where field maps are already parsed). -/
def findDuplicateNotes (notes : List Note) (cards : List Card)
    (fieldName value : Str) (deckID : Int) : List NoteBrief :=
  let normalizedValue := goToLower (trimSpace value)
  notes.filterMap fun n =>
    match fieldsFind n.fieldMap fieldName with
    | none => none
    | some fieldVal =>
      if goToLower (trimSpace fieldVal) = normalizedValue then
        if deckID > 0 ∧ ¬ noteHasCardInDeck cards n.id deckID then none
        else some { id := n.id, typeId := n.type, fieldVals := n.fieldMap }
      else none

/-- The `CheckDuplicate` handler (server.go lines 279-304): only a literally
empty request value short-circuits, before any normalization. -/
def checkDuplicate (notes : List Note) (cards : List Card)
    (fieldName value : Str) (deckID : Int) : List NoteBrief :=
  if value = [] then []
  else findDuplicateNotes notes cards fieldName value deckID

/-! ## RemoveField (server.go lines 730-786) -/

/-- The pure mutation of the `RemoveField` handler: `none` models the
rejecting HTTP error paths (empty name, last field, unknown field); on
success only the field list changes.  The handler never touches
`nt.Templates`. -/
def removeField (nt : NoteType) (fieldName : Str) : Option NoteType :=
  if fieldName = [] then none
  else if nt.fields.length ≤ 1 then none
  else
    let newFields := nt.fields.filter (fun f => f ≠ fieldName)
    if nt.fields.any (fun f => f = fieldName) then
      some { nt with fields := newFields }
    else none

/-! ## Collection.AddNote (part_001 lines 175-216) -/

/-- An in-memory deck (`Deck` of part_001, the fields AddNote touches). -/
structure DeckM where
  id : Int
  name : Str
  cards : List Int
deriving DecidableEq, Repr

/-- The slice of `Collection` that `AddNote` reads and writes. -/
structure Collection where
  nextNoteID : Int
  nextCardID : Int
  noteTypes : List (Str × NoteType)
  notes : List (Int × Note)
  cards : List (Int × Card)
  decks : List (Int × DeckM)
  usn : Int
deriving DecidableEq, Repr

/-- Association lookup on a Go map modelled as a list with unique keys. -/
def lookupAssoc {α : Type} [DecidableEq α] {β : Type} (l : List (α × β))
    (k : α) : Option β :=
  (l.find? (fun p => p.1 = k)).map (fun p => p.2)

/-- Model of `if d, ok := c.Decks[deckID]; ok { d.Cards = append(d.Cards, cardID) }`. -/
def deckAppendCard (decks : List (Int × DeckM)) (deckID cardID : Int) :
    List (Int × DeckM) :=
  decks.map fun p =>
    if p.1 = deckID then (p.1, { p.2 with cards := p.2.cards ++ [cardID] })
    else p

/-- The card-persisting loop of `AddNote`: allocate ids from `nextCardID`,
stamp each card with the collection's USN, record it in the card map and in
the deck. -/
def addNoteCards (usn : Int) (deckID : Int) :
    List Card → Int × List Card × List (Int × Card) × List (Int × DeckM) →
    Int × List Card × List (Int × Card) × List (Int × DeckM)
  | [], st => st
  | card :: rest, (nid, out, cardsAcc, decks) =>
    let card' := { card with id := nid, usn := usn }
    addNoteCards usn deckID rest
      (nid + 1, out ++ [card'], cardsAcc ++ [(nid, card')],
       deckAppendCard decks deckID nid)

/-- Model of `Collection.AddNote(deckID, ntName, fields, now)` of part_001:
`none` models the unknown-note-type error (before any mutation); on success
returns the updated collection, the note and the persisted cards. -/
def addNote (c : Collection) (deckID : Int) (ntName : Str) (fields : FieldMap)
    (now : Int) : Option (Collection × Note × List Card) :=
  match lookupAssoc c.noteTypes ntName with
  | none => none
  | some nt =>
    let noteID := c.nextNoteID
    let usn := c.usn + 1
    let n : Note :=
      { id := noteID, type := ntName, fieldMap := fields, tags := [],
        usn := usn, createdAt := now, modifiedAt := now }
    let gen := generateCardsFromNote nt n deckID now
    let st := addNoteCards usn deckID gen (c.nextCardID, [], c.cards, c.decks)
    some ({ c with nextNoteID := noteID + 1, nextCardID := st.1,
                   notes := c.notes ++ [(noteID, n)], cards := st.2.2.1,
                   decks := st.2.2.2, usn := usn },
          n, st.2.1)

/-! ## Segmentation views used to state the rendering claims

`clozeSplit` decomposes a text into the unmatched stretches and the cloze
occurrences exactly as the `clozeRe` scan visits them; it lets the claims
about `renderCloze` quantify over the occurrences of a text. -/

/-- A segment of a text under the `clozeRe` scan: a literal (unmatched)
stretch, or one occurrence with its digit, answer and hint captures. -/
inductive ClozeSeg : Type
  | lit (s : Str) : ClozeSeg
  | occ (ds ans hint : Str) : ClozeSeg
deriving DecidableEq, Repr

/-- The `clozeRe` scan of a text as a list of segments. -/
def clozeSplit (text : Str) : List ClozeSeg :=
  goScan matchCloze (fun g => [ClozeSeg.occ g.1 g.2.1 g.2.2])
    (fun c => [ClozeSeg.lit [c]]) (fun s => [ClozeSeg.lit s]) text.length text

/-- The literal text of the token `\x7b\x7bFrontSide\x7d\x7d`. -/
def frontSideTok : Str := [lb, lb] ++ ("FrontSide").data ++ [rb, rb]

/-! ## Concrete fixtures for the counterexamples and witnesses -/

/-- The built-in Basic template (`builtins()` of part_001), with server.go's
extra template fields at their zero values. -/
def exBasicTemplate : CardTemplate :=
  { name := ("Card 1").data, qFmt := ("Q: " ++ "\x7b\x7bFront\x7d\x7d").data,
    aFmt := ("A: " ++ "\x7b\x7bBack\x7d\x7d").data, styling := [],
    ifFieldNonEmpty := [], isCloze := false, deckOverride := [],
    browserQFmt := [], browserAFmt := [] }

def exBasicNT : NoteType :=
  { name := ("Basic").data, fields := [("Front").data, ("Back").data],
    templates := [exBasicTemplate], sortFieldIndex := 0 }

def exNote : Note :=
  { id := 7, type := ("Basic").data,
    fieldMap := [(("Front").data, ("F").data), (("Back").data, ("B").data)],
    tags := [], usn := 1, createdAt := 0, modifiedAt := 0 }

/-- A persisted card of `exNote` whose rendered content already matches the
Basic template output. -/
def exCard3 : Card :=
  { id := 3, noteId := 7, deckId := 1, templateName := ("Card 1").data,
    ordinal := 0, front := ("Q: F").data, back := ("A: B").data,
    srs := 42, flag := 2, marked := true, suspended := false, usn := 5 }

/-- The built-in Cloze template. -/
def exClozeTemplate : CardTemplate :=
  { name := ("Cloze").data,
    qFmt := ("Q: " ++ "\x7b\x7bcloze:Text\x7d\x7d").data,
    aFmt := ("A: " ++ "\x7b\x7bcloze:Text\x7d\x7d").data, styling := [],
    ifFieldNonEmpty := [], isCloze := true, deckOverride := [],
    browserQFmt := [], browserAFmt := [] }

def exClozeNT : NoteType :=
  { name := ("Cloze").data, fields := [("Text").data, ("Extra").data],
    templates := [exClozeTemplate], sortFieldIndex := 0 }

/-- A cloze note with the two markers `c1` and `c2` and no persisted cards. -/
def exClozeNote : Note :=
  { id := 7, type := ("Cloze").data,
    fieldMap := [(("Text").data,
      ("\x7b\x7bc1::a\x7d\x7d \x7b\x7bc2::b\x7d\x7d").data)],
    tags := [], usn := 1, createdAt := 0, modifiedAt := 0 }

/-- The Cloze template with a deck override set (server.go lets
`UpdateTemplate` store one on any template). -/
def exOvrTemplate : CardTemplate :=
  { exClozeTemplate with deckOverride := ("Other").data }

def exOvrNT : NoteType :=
  { exClozeNT with templates := [exOvrTemplate] }

/-- A cloze template gated on the `Extra` field. -/
def exGatedClozeTemplate : CardTemplate :=
  { exClozeTemplate with ifFieldNonEmpty := ("Extra").data }

/-- A note whose `Text` holds the marker `c1` but whose `Extra` is blank. -/
def exGatedClozeNote : Note :=
  { id := 9, type := ("Cloze").data,
    fieldMap := [(("Text").data, ("\x7b\x7bc1::x\x7d\x7d").data),
                 (("Extra").data, [])],
    tags := [], usn := 1, createdAt := 0, modifiedAt := 0 }

/-- A Basic-like template whose back uses `\x7b\x7bFrontSide\x7d\x7d`. -/
def exFSTemplate : CardTemplate :=
  { exBasicTemplate with
    aFmt := ("\x7b\x7bFrontSide\x7d\x7d A: " ++ "\x7b\x7bBack\x7d\x7d").data }

def exFSNT : NoteType :=
  { exBasicNT with templates := [exFSTemplate] }

/-- A note type with a template gated on its `Extra` field (for
`RemoveField`). -/
def exGateNT : NoteType :=
  { name := ("T").data, fields := [("Front").data, ("Extra").data],
    templates := [{ exBasicTemplate with ifFieldNonEmpty := ("Extra").data }],
    sortFieldIndex := 0 }

/-- A stored note whose `Front` field is present but empty. -/
def exBlankNote : Note :=
  { id := 1, type := ("Basic").data, fieldMap := [(("Front").data, [])],
    tags := [], usn := 1, createdAt := 0, modifiedAt := 0 }

/-- A stored note whose `Front` field is `hello`. -/
def exHelloNote : Note :=
  { id := 2, type := ("Basic").data,
    fieldMap := [(("Front").data, ("hello").data)],
    tags := [], usn := 1, createdAt := 0, modifiedAt := 0 }

/-- A fresh collection holding the Basic note type and one deck. -/
def exColl : Collection :=
  { nextNoteID := 1, nextCardID := 1,
    noteTypes := [(("Basic").data, exBasicNT)], notes := [], cards := [],
    decks := [(1, { id := 1, name := ("Default").data, cards := [] })],
    usn := 0 }

/-- The note `addNote exColl …` persists. -/
def exNoteAfter : Note :=
  { id := 1, type := ("Basic").data, fieldMap := exNote.fieldMap, tags := [],
    usn := 1, createdAt := 0, modifiedAt := 0 }

/-- The card `addNote exColl …` persists. -/
def exCardAfter : Card :=
  { id := 1, noteId := 1, deckId := 1, templateName := ("Card 1").data,
    ordinal := 0, front := ("Q: F").data, back := ("A: B").data,
    srs := 0, flag := 0, marked := false, suspended := false, usn := 1 }

/-- The cloze example text of the specification. -/
def exC6Text : Str :=
  ("The \x7b\x7bc1::capital\x7d\x7d of \x7b\x7bc2::France\x7d\x7d is Paris").data

/-- A cloze text whose first marker carries the largest in-range ordinal
2^63 - 1 and whose second marker carries a larger, out-of-range numeral. -/
def exC6OverText : Str :=
  ("\x7b\x7bc9223372036854775807::a\x7d\x7d \x7b\x7bc18446744073709551999::b\x7d\x7d").data

/-- The ordinal-1 card the override regeneration scenario creates. -/
def exOvrCard1 : Card :=
  { id := 0, noteId := 7, deckId := 1, templateName := ("Cloze").data,
    ordinal := 1, front := ("Q: [...] b").data, back := ("A: **a** b").data,
    srs := 5, flag := 0, marked := false, suspended := false, usn := 0 }

/-- The collection after `addNote exColl …`. -/
def exCollAfter : Collection :=
  { exColl with nextNoteID := 2, nextCardID := 2,
                notes := [(1, exNoteAfter)], cards := [(1, exCardAfter)],
                decks := [(1, { id := 1, name := ("Default").data,
                                cards := [1] })],
                usn := 1 }

/-! ## Matcher lemmas: every match consumes at least one character -/

theorem matchField_rest_length {s g r : Str} (h : matchField s = some (g, r)) :
    r.length < s.length := by
  match s with
  | [] => simp [matchField] at h
  | [c] => simp [matchField] at h
  | c₁ :: c₂ :: rest =>
    simp only [matchField] at h
    split at h
    · simp only [Option.some.injEq, Prod.mk.injEq] at h
      obtain ⟨hg, hr⟩ := h
      subst hr
      simp only [List.length_drop, List.length_cons]
      omega
    · exact absurd h (by simp)

theorem matchField_nil : matchField [] = none := rfl

theorem matchField_cons_ne {c : Char} (s : Str) (hc : c ≠ lb) :
    matchField (c :: s) = none := by
  match s with
  | [] => rfl
  | c₂ :: rest => simp [matchField, hc]

theorem take_two_pair_length {s : Str} {x y : Char} (h : s.take 2 = [x, y]) :
    2 ≤ s.length := by
  by_contra hlt
  push_neg at hlt
  have h2 : (s.take 2).length ≤ 1 := by
    simp only [List.length_take]
    omega
  rw [h] at h2
  simp at h2

theorem clozeTryClose_rest_length {s h r : Str}
    (hm : clozeTryClose s = some (h, r)) : r.length + 2 ≤ s.length := by
  simp only [clozeTryClose] at hm
  split at hm
  · rename_i hcolon
    split at hm
    · rename_i htake
      simp only [Option.some.injEq, Prod.mk.injEq] at hm
      obtain ⟨hh, hr⟩ := hm
      subst hr
      have := take_two_pair_length hcolon
      simp only [List.length_drop]
      omega
    · exact absurd hm (by simp)
  · split at hm
    · rename_i htake
      simp only [Option.some.injEq, Prod.mk.injEq] at hm
      obtain ⟨hh, hr⟩ := hm
      subst hr
      have := take_two_pair_length htake
      simp only [List.length_drop]
      omega
    · exact absurd hm (by simp)

theorem clozeBody_rest_length {s a hnt r : Str}
    (hm : clozeBody s = some (a, hnt, r)) : r.length + 2 ≤ s.length := by
  induction s generalizing a hnt with
  | nil => simp [clozeBody] at hm
  | cons c cs ih =>
    rw [clozeBody] at hm
    split at hm
    · rename_i h' rest heq
      simp only [Option.some.injEq, Prod.mk.injEq] at hm
      obtain ⟨-, -, hr⟩ := hm
      subst hr
      exact clozeTryClose_rest_length heq
    · split at hm
      · simp only [Option.map_eq_some'] at hm
        obtain ⟨⟨a', h'', r'⟩, hrec, heq⟩ := hm
        simp only [Prod.mk.injEq] at heq
        obtain ⟨-, -, hr⟩ := heq
        subst hr
        have := ih hrec
        simp only [List.length_cons]
        omega
      · exact absurd hm (by simp)

theorem matchCloze_rest_length {s : Str} {g : Str × Str × Str} {r : Str}
    (h : matchCloze s = some (g, r)) : r.length < s.length := by
  match s with
  | [] => simp [matchCloze] at h
  | [c] => simp [matchCloze] at h
  | [c₁, c₂] => simp [matchCloze] at h
  | c₁ :: c₂ :: c₃ :: rest =>
    simp only [matchCloze] at h
    split at h
    · simp only [Option.map_eq_some'] at h
      obtain ⟨⟨a, h', r'⟩, hbody, heq⟩ := h
      simp only [Prod.mk.injEq] at heq
      obtain ⟨-, hr⟩ := heq
      subst hr
      have h1 := clozeBody_rest_length hbody
      have h2 : ((rest.drop (rest.takeWhile Char.isDigit).length).drop 2).length
          ≤ rest.length := by
        simp only [List.length_drop]
        omega
      simp only [List.length_cons]
      omega
    · exact absurd h (by simp)

/-! ## Scanner lemmas -/

theorem goScan_nil {γ β : Type} (m : Str → Option (γ × Str))
    (onM : γ → List β) (onC : Char → List β) (onE : Str → List β)
    (fuel : Nat) : goScan m onM onC onE fuel [] = [] := by
  cases fuel <;> rfl

theorem goScan_cons_some {γ β : Type} {m : Str → Option (γ × Str)}
    (onM : γ → List β) (onC : Char → List β) (onE : Str → List β)
    (fuel : Nat) {c : Char} {cs : Str} {g : γ} {r : Str}
    (h : m (c :: cs) = some (g, r)) :
    goScan m onM onC onE (fuel + 1) (c :: cs) =
      onM g ++ goScan m onM onC onE fuel r := by
  simp [goScan, h]

theorem goScan_cons_none {γ β : Type} {m : Str → Option (γ × Str)}
    (onM : γ → List β) (onC : Char → List β) (onE : Str → List β)
    (fuel : Nat) {c : Char} {cs : Str} (h : m (c :: cs) = none) :
    goScan m onM onC onE (fuel + 1) (c :: cs) =
      onC c ++ goScan m onM onC onE fuel cs := by
  simp [goScan, h]

/-- Any two sufficient fuels give the same scan. -/
theorem goScan_congr_fuel {γ β : Type} {m : Str → Option (γ × Str)}
    {onM : γ → List β} {onC : Char → List β} {onE : Str → List β}
    (hm : ∀ s (g : γ) r, m s = some (g, r) → r.length < s.length) :
    ∀ f₁ f₂ (s : Str), s.length ≤ f₁ → s.length ≤ f₂ →
      goScan m onM onC onE f₁ s = goScan m onM onC onE f₂ s := by
  intro f₁
  induction f₁ with
  | zero =>
    intro f₂ s h₁ h₂
    have : s = [] := by
      cases s with
      | nil => rfl
      | cons c cs => simp at h₁
    subst this
    rw [goScan_nil, goScan_nil]
  | succ f₁ ih =>
    intro f₂ s h₁ h₂
    cases s with
    | nil => rw [goScan_nil, goScan_nil]
    | cons c cs =>
      cases f₂ with
      | zero => simp at h₂
      | succ f₂ =>
        cases hmc : m (c :: cs) with
        | none =>
          rw [goScan_cons_none _ _ _ _ hmc, goScan_cons_none _ _ _ _ hmc]
          simp only [List.length_cons] at h₁ h₂
          rw [ih f₂ cs (by omega) (by omega)]
        | some gr =>
          obtain ⟨g, r⟩ := gr
          rw [goScan_cons_some _ _ _ _ hmc, goScan_cons_some _ _ _ _ hmc]
          have hlen := hm _ _ _ hmc
          simp only [List.length_cons] at h₁ h₂ hlen
          rw [ih f₂ r (by omega) (by omega)]

/-- Mapping `flatMap` over a scan result folds into the emitters. -/
theorem goScan_flatMap {γ β δ : Type} (m : Str → Option (γ × Str))
    (onM : γ → List β) (onC : Char → List β) (onE : Str → List β)
    (f : β → List δ) :
    ∀ fuel (s : Str),
      (goScan m onM onC onE fuel s).flatMap f =
        goScan m (fun g => (onM g).flatMap f) (fun c => (onC c).flatMap f)
          (fun s => (onE s).flatMap f) fuel s := by
  intro fuel
  induction fuel with
  | zero =>
    intro s
    cases s with
    | nil => rfl
    | cons c cs => rfl
  | succ fuel ih =>
    intro s
    cases s with
    | nil => rfl
    | cons c cs =>
      cases hmc : m (c :: cs) with
      | none =>
        rw [goScan_cons_none _ _ _ _ hmc, goScan_cons_none _ _ _ _ hmc]
        simp [List.flatMap_append, ih]
      | some gr =>
        obtain ⟨g, r⟩ := gr
        rw [goScan_cons_some _ _ _ _ hmc, goScan_cons_some _ _ _ _ hmc]
        simp [List.flatMap_append, ih]

/-! ## renderTemplate and the FrontSide token -/

theorem renderTemplate_fuel (fm : FieldMap) {fuel : Nat} {s : Str}
    (h : s.length ≤ fuel) :
    goScan matchField (goFieldCallback fm) (fun c => [c]) id fuel s =
      renderTemplate s fm :=
  goScan_congr_fuel (fun _ _ _ hh => matchField_rest_length hh)
    fuel s.length s h le_rfl

theorem frontSideTok_cons (b : Str) :
    frontSideTok ++ b =
      lb :: lb :: (("FrontSide").data ++ rb :: rb :: b) := by
  simp [frontSideTok]

theorem matchField_frontSideTok (b : Str) :
    matchField (frontSideTok ++ b) = some ((("FrontSide").data, b)) := by
  have hdata : ("FrontSide").data = ['F', 'r', 'o', 'n', 't', 'S', 'i', 'd', 'e'] := by
    decide
  rw [frontSideTok_cons, hdata]
  simp [matchField, List.takeWhile_cons, lb, rb]

theorem goFieldCallback_frontSide (fm : FieldMap) :
    goFieldCallback fm (("FrontSide").data) = fieldsGet fm (("FrontSide").data) := by
  have h1 : trimSpace (("FrontSide").data) = ("FrontSide").data := by decide
  have h2 : ((("FrontSide").data).take 5 = ("type:").data) = False := by decide
  simp [goFieldCallback, h1, h2]

theorem renderTemplate_fs_aux (fm : FieldMap) :
    ∀ (a b : Str) (fuel : Nat), lb ∉ a →
      (a ++ frontSideTok ++ b).length ≤ fuel →
      goScan matchField (goFieldCallback fm) (fun c => [c]) id fuel
          (a ++ frontSideTok ++ b) =
        a ++ fieldsGet fm (("FrontSide").data) ++ renderTemplate b fm := by
  intro a
  induction a with
  | nil =>
    intro b fuel _ hfuel
    rw [List.nil_append] at hfuel ⊢
    have hlen : (frontSideTok ++ b).length = b.length + 13 := by
      simp [frontSideTok]
    cases fuel with
    | zero => omega
    | succ f =>
      have hmatch := matchField_frontSideTok b
      rw [frontSideTok_cons] at hmatch ⊢
      rw [goScan_cons_some _ _ _ _ hmatch]
      rw [goFieldCallback_frontSide]
      rw [renderTemplate_fuel fm (by omega)]
      rw [List.nil_append]
  | cons c a ih =>
    intro b fuel hnotin hfuel
    have hc : c ≠ lb := fun h => hnotin (h ▸ List.mem_cons_self c a)
    have hrest : lb ∉ a := fun h => hnotin (List.mem_cons_of_mem c h)
    have hcons : (c :: a) ++ frontSideTok ++ b = c :: (a ++ frontSideTok ++ b) := by
      simp
    rw [hcons] at hfuel ⊢
    cases fuel with
    | zero => simp at hfuel
    | succ f =>
      rw [goScan_cons_none _ _ _ _ (matchField_cons_ne _ hc)]
      rw [ih b f hrest (by simpa using Nat.lt_succ_iff.mp (Nat.lt_of_lt_of_le (Nat.lt_succ_self _) hfuel))]
      simp

/-! ## renderCloze as a map over the occurrence decomposition -/

theorem clozeSplit_flatMap (text : Str) (f : ClozeSeg → Str) (hlit : ∀ s, f (ClozeSeg.lit s) = s) :
    (clozeSplit text).flatMap f =
      goScan matchCloze (fun g => f (ClozeSeg.occ g.1 g.2.1 g.2.2))
        (fun c => [c]) id text.length text := by
  unfold clozeSplit
  rw [goScan_flatMap]
  have h1 : (fun (g : (Str × Str × Str)) => ([ClozeSeg.occ g.1 g.2.1 g.2.2]).flatMap f)
      = fun g => f (ClozeSeg.occ g.1 g.2.1 g.2.2) := by
    funext g
    simp
  have h2 : (fun (c : Char) => ([ClozeSeg.lit [c]]).flatMap f) = fun c => [c] := by
    funext c
    simp [hlit]
  have h3 : (fun (s : Str) => ([ClozeSeg.lit s]).flatMap f) = (id : Str → Str) := by
    funext s
    simp [hlit]
  rw [h1, h2, h3]

/-! ## extractClozeOrdinals: sortedness and membership -/

theorem mem_insertOrd {a n : Nat} : ∀ {l : List Nat},
    a ∈ insertOrd n l ↔ a = n ∨ a ∈ l := by
  intro l
  induction l with
  | nil => simp [insertOrd]
  | cons m ms ih =>
    simp only [insertOrd]
    split
    · simp
    · split
      · rename_i hlt heq
        subst heq
        simp only [List.mem_cons]
        constructor
        · intro h
          exact Or.inr h
        · rintro (h | h)
          · exact Or.inl h
          · exact h
      · simp only [List.mem_cons, ih]
        tauto

theorem pairwise_insertOrd {n : Nat} : ∀ {l : List Nat},
    l.Pairwise (· < ·) → (insertOrd n l).Pairwise (· < ·) := by
  intro l
  induction l with
  | nil =>
    intro _
    simp [insertOrd]
  | cons m ms ih =>
    intro hp
    rw [List.pairwise_cons] at hp
    obtain ⟨hm, hms⟩ := hp
    simp only [insertOrd]
    split
    · rename_i hlt
      rw [List.pairwise_cons]
      refine ⟨?_, List.pairwise_cons.mpr ⟨hm, hms⟩⟩
      intro x hx
      rcases List.mem_cons.mp hx with h | h
      · omega
      · have := hm x h
        omega
    · split
      · exact List.pairwise_cons.mpr ⟨hm, hms⟩
      · rename_i hnlt hne
        rw [List.pairwise_cons]
        constructor
        · intro x hx
          rcases mem_insertOrd.mp hx with h | h
          · omega
          · exact hm x h
        · exact ih hms

theorem mem_sortDedup_aux {a : Nat} : ∀ (l acc : List Nat),
    a ∈ l.foldl (fun acc n => insertOrd n acc) acc ↔ a ∈ acc ∨ a ∈ l := by
  intro l
  induction l with
  | nil => simp
  | cons n ns ih =>
    intro acc
    simp only [List.foldl_cons, ih, mem_insertOrd, List.mem_cons]
    tauto

theorem mem_sortDedup {a : Nat} {l : List Nat} :
    a ∈ sortDedup l ↔ a ∈ l := by
  unfold sortDedup
  rw [mem_sortDedup_aux]
  simp

theorem pairwise_sortDedup_aux : ∀ (l acc : List Nat),
    acc.Pairwise (· < ·) →
    (l.foldl (fun acc n => insertOrd n acc) acc).Pairwise (· < ·) := by
  intro l
  induction l with
  | nil =>
    intro acc h
    simpa using h
  | cons n ns ih =>
    intro acc h
    exact ih _ (pairwise_insertOrd h)

theorem pairwise_sortDedup {l : List Nat} :
    (sortDedup l).Pairwise (· < ·) :=
  pairwise_sortDedup_aux l [] (by simp)

theorem mem_extractClozeOrdinals {text : Str} {N : Nat} :
    N ∈ extractClozeOrdinals text ↔
      ∃ g ∈ clozeFindAll text, clozeOrdOf g = some N := by
  unfold extractClozeOrdinals
  rw [mem_sortDedup, List.mem_filterMap]

/-! ## Fields of compiled drafts -/

theorem cardsForTemplate_fields {t : CardTemplate} {n : Note} {deckID : Int}
    {now : Int} {c : Card} (h : c ∈ cardsForTemplate t n deckID now) :
    c.id = 0 ∧ c.noteId = n.id ∧ c.deckId = deckID ∧ c.srs = now ∧
      c.usn = 0 ∧ c.templateName = t.name := by
  unfold cardsForTemplate at h
  split at h
  · simp at h
  · split at h
    · rw [List.mem_map] at h
      obtain ⟨ord, -, rfl⟩ := h
      exact ⟨rfl, rfl, rfl, rfl, rfl, rfl⟩
    · rw [List.mem_singleton] at h
      subst h
      exact ⟨rfl, rfl, rfl, rfl, rfl, rfl⟩

theorem cardsForTemplates_fields {ts : List CardTemplate} {n : Note}
    {deckID : Int} {now : Int} {c : Card}
    (h : c ∈ cardsForTemplates ts n deckID now) :
    c.id = 0 ∧ c.noteId = n.id ∧ c.deckId = deckID ∧ c.srs = now ∧ c.usn = 0 := by
  unfold cardsForTemplates at h
  rw [List.mem_flatMap] at h
  obtain ⟨t, -, hc⟩ := h
  obtain ⟨h1, h2, h3, h4, h5, -⟩ := cardsForTemplate_fields hc
  exact ⟨h1, h2, h3, h4, h5⟩

/-! ## Reconciliation fold invariants -/

theorem lookupKV_some_mem {m : CardMap} {k : Str × Nat} {v : Card}
    (h : lookupKV m k = some v) : ∃ p ∈ m, p.1 = k ∧ p.2 = v := by
  unfold lookupKV at h
  rw [Option.map_eq_some'] at h
  obtain ⟨p, hfind, hv⟩ := h
  refine ⟨p, List.mem_of_find?_eq_some hfind, ?_, hv⟩
  have := List.find?_some hfind
  simpa using this

theorem buildMap_mem : ∀ (l : List Card) (m₀ : CardMap) (kv : (Str × Nat) × Card),
    kv ∈ l.foldl (fun m c => insertKV m (cardKey c) c) m₀ →
    kv ∈ m₀ ∨ ∃ c ∈ l, kv = (cardKey c, c) := by
  intro l
  induction l with
  | nil =>
    intro m₀ kv h
    exact Or.inl h
  | cons c cs ih =>
    intro m₀ kv h
    rcases ih _ kv h with hm | ⟨c', hc', rfl⟩
    · unfold insertKV at hm
      rcases List.mem_cons.mp hm with h1 | h1
      · exact Or.inr ⟨c, List.mem_cons_self c cs, h1⟩
      · exact Or.inl (List.mem_of_mem_filter h1)
    · exact Or.inr ⟨c', List.mem_cons_of_mem c hc', rfl⟩

/-- The key invariant of the Go map during reconciliation: every entry is an
existing card indexed by its own key. -/
def MapOK (existing : List Card) (m : CardMap) : Prop :=
  ∀ kv ∈ m, kv.2 ∈ existing ∧ kv.1 = cardKey kv.2

theorem buildMap_ok (existing : List Card) : MapOK existing (buildMap existing) := by
  intro kv hkv
  rcases buildMap_mem existing [] kv hkv with h | ⟨c, hc, rfl⟩
  · simp at h
  · exact ⟨hc, rfl⟩

theorem eraseKV_subset {m : CardMap} {k : Str × Nat} {kv : (Str × Nat) × Card}
    (h : kv ∈ eraseKV m k) : kv ∈ m :=
  List.mem_of_mem_filter h

/-- What one matched update looks like. -/
def UpdOK (existing drafts : List Card) (u : Card) : Prop :=
  ∃ ex ∈ existing, ∃ d ∈ drafts, cardKey ex = cardKey d ∧
    u = { ex with front := d.front, back := d.back }

theorem regenFold_inv (existing drafts : List Card) :
    ∀ (l : List Card) (st : List Card × CardMap × List Card × List Card),
      (∀ d ∈ l, d ∈ drafts) →
      MapOK existing st.2.1 →
      (∀ c ∈ st.2.2.1, c ∈ drafts) →
      (∀ u ∈ st.2.2.2, UpdOK existing drafts u) →
      MapOK existing (l.foldl regenStep st).2.1 ∧
        (∀ c ∈ (l.foldl regenStep st).2.2.1, c ∈ drafts) ∧
        (∀ u ∈ (l.foldl regenStep st).2.2.2, UpdOK existing drafts u) := by
  intro l
  induction l with
  | nil =>
    intro st _ h1 h2 h3
    exact ⟨h1, h2, h3⟩
  | cons d ds ih =>
    intro st hl h1 h2 h3
    rw [List.foldl_cons]
    have hd : d ∈ drafts := hl d (List.mem_cons_self d ds)
    have hds : ∀ d₀ ∈ ds, d₀ ∈ drafts := fun d₀ h₀ => hl d₀ (List.mem_cons_of_mem d h₀)
    refine ih (regenStep st d) hds ?_ ?_ ?_
    · unfold regenStep
      cases hlook : lookupKV st.2.1 (cardKey d) with
      | some ex =>
        intro kv hkv
        exact h1 kv (eraseKV_subset hkv)
      | none =>
        exact h1
    · unfold regenStep
      cases hlook : lookupKV st.2.1 (cardKey d) with
      | some ex =>
        exact h2
      | none =>
        intro c hc
        rcases List.mem_append.mp hc with h | h
        · exact h2 c h
        · rw [List.mem_singleton] at h
          exact h ▸ hd
    · unfold regenStep
      cases hlook : lookupKV st.2.1 (cardKey d) with
      | some ex =>
        intro u hu
        rcases List.mem_append.mp hu with h | h
        · exact h3 u h
        · rw [List.mem_singleton] at h
          obtain ⟨p, hp, hpk, hpv⟩ := lookupKV_some_mem hlook
          obtain ⟨hex, hkey⟩ := h1 p hp
          refine ⟨ex, hpv ▸ hex, d, hd, ?_, h⟩
          rw [← hpv, ← hkey, hpk]
      | none =>
        exact h3

theorem regenerateNote_toUpdate (nt : NoteType) (note : Note)
    (store : List Card) (now : Int) :
    (regenerateNote nt note store now).toUpdate =
      ((regenDrafts nt note store now).foldl regenStep
        (store, buildMap (getCardsByNote store note.id), [], [])).2.2.2 := rfl

theorem regenerateNote_toCreate (nt : NoteType) (note : Note)
    (store : List Card) (now : Int) :
    (regenerateNote nt note store now).toCreate =
      ((regenDrafts nt note store now).foldl regenStep
        (store, buildMap (getCardsByNote store note.id), [], [])).2.2.1 := rfl

/-! ## AddNote helper -/

theorem addNoteCards_out_usn (usn : Int) (deckID : Int) :
    ∀ (l : List Card) (st : Int × List Card × List (Int × Card) × List (Int × DeckM)),
      (∀ card ∈ st.2.1, card.usn = usn) →
      ∀ card ∈ (addNoteCards usn deckID l st).2.1, card.usn = usn := by
  intro l
  induction l with
  | nil =>
    intro st h
    exact h
  | cons card rest ih =>
    intro st h
    obtain ⟨nid, out, cardsAcc, decks⟩ := st
    refine ih _ ?_
    intro c hc
    rcases List.mem_append.mp hc with h1 | h1
    · exact h c h1
    · rw [List.mem_singleton] at h1
      subst h1
      rfl

/-! ## The claims -/

/-- C1.  The claim states that after a regeneration run the note's persisted
card set holds exactly one card per producible `(templateName, ordinal)`
pair.  The code compiles drafts with the Go zero id `0` and inserts them
unchanged; `cards.id` is the SQLite rowid, so only the first insertion can
succeed and every further needed card is silently dropped.  At the failing
input — a cloze note with markers `c1`,`c2` and no persisted cards — the two
pairs `(Cloze,1)`,`(Cloze,2)` are producible, yet after the run the store
holds only `(Cloze,1)`. -/
theorem C1_regeneration_loses_second_created_card :
    ((regenDrafts exClozeNT exClozeNote [] 5).map
        (fun c => (c.templateName, c.ordinal)) =
      [((("Cloze").data), 1), ((("Cloze").data), 2)]) ∧
    ((regenerateNote exClozeNT exClozeNote [] 5).store.map
        (fun c => (c.templateName, c.ordinal)) =
      [((("Cloze").data), 1)]) := by
  decide

/-- C2 (counterexample).  A matched draft whose rendered front/back equal
the stored card's content is still written back (`UpdateCard` is issued and
the card lands in the update set), refuting the claim that an unchanged card
is not counted as updated; the write changes nothing, in particular no usn
bump ever happens. -/
theorem C2_counterexample_unchanged_card_still_updated :
    ((regenDrafts exBasicNT exNote [exCard3] 9).map (fun d => (d.front, d.back)) =
      [(exCard3.front, exCard3.back)]) ∧
    (regenerateNote exBasicNT exNote [exCard3] 9).toUpdate = [exCard3] ∧
    (regenerateNote exBasicNT exNote [exCard3] 9).store = [exCard3] := by
  decide

/-- C2 (amended).  When a draft's key matches an existing card, the draft's
front/back are copied into the existing card and every other field —
id, deckId, schedulingState, flag, marked, suspended AND usn — is untouched;
the update is issued unconditionally, whether or not the content differs,
and the usn is never bumped. -/
theorem C2_amended_update_preserves_all_but_content (nt : NoteType)
    (note : Note) (store : List Card) (now : Int) (u : Card)
    (h : u ∈ (regenerateNote nt note store now).toUpdate) :
    ∃ ex ∈ getCardsByNote store note.id,
      ∃ d ∈ regenDrafts nt note store now,
        cardKey ex = cardKey d ∧ u.id = ex.id ∧ u.deckId = ex.deckId ∧
        u.srs = ex.srs ∧ u.flag = ex.flag ∧ u.marked = ex.marked ∧
        u.suspended = ex.suspended ∧ u.usn = ex.usn ∧
        u.front = d.front ∧ u.back = d.back := by
  rw [regenerateNote_toUpdate] at h
  have hinv := regenFold_inv (getCardsByNote store note.id)
    (regenDrafts nt note store now) (regenDrafts nt note store now)
    (store, buildMap (getCardsByNote store note.id), [], [])
    (fun d hd => hd) (buildMap_ok _)
    (by intro c hc; simp at hc) (by intro u hu; simp at hu)
  obtain ⟨ex, hex, d, hd, hkey, hueq⟩ := hinv.2.2 u h
  subst hueq
  exact ⟨ex, hex, d, hd, hkey, rfl, rfl, rfl, rfl, rfl, rfl, rfl, rfl, rfl⟩

theorem C2_amended_witness :
    exCard3 ∈ (regenerateNote exBasicNT exNote [exCard3] 9).toUpdate ∧
    (∃ ex ∈ getCardsByNote [exCard3] exNote.id,
      ∃ d ∈ regenDrafts exBasicNT exNote [exCard3] 9,
        cardKey ex = cardKey d ∧ exCard3.id = ex.id ∧
        exCard3.deckId = ex.deckId ∧ exCard3.srs = ex.srs ∧
        exCard3.flag = ex.flag ∧ exCard3.marked = ex.marked ∧
        exCard3.suspended = ex.suspended ∧ exCard3.usn = ex.usn ∧
        exCard3.front = d.front ∧ exCard3.back = d.back) :=
  ⟨by decide,
   C2_amended_update_preserves_all_but_content exBasicNT exNote [exCard3] 9
     exCard3 (by decide)⟩

/-- C3 (counterexample).  The card generator renders the back of a template
containing `\x7b\x7bFrontSide\x7d\x7d` as a plain field lookup: with fields
Front=F, Back=B the back comes out as `" A: B"` — the already-rendered front
`"Q: F"` is not substituted, so the claimed back `"Q: F A: B"` is not
produced. -/
theorem C3_counterexample_frontside_not_substituted :
    ((generateCardsFromNote exFSNT exNote 1 0).map (fun c => (c.front, c.back)) =
      [((("Q: F").data), ((" A: B").data))]) ∧
    ((" A: B").data : Str) ≠ ("Q: F A: B").data := by
  decide

/-- C3 (amended).  In server-side rendering a `\x7b\x7bFrontSide\x7d\x7d`
token is an ordinary field lookup: it renders as the value stored under the
key `FrontSide` (the empty string when absent), not as the already-rendered
front side; the looked-up value is inserted verbatim and never re-scanned,
so nothing is ever re-expanded recursively.  (The one-level substitution of
the rendered front exists only in the web preview component, outside the
card-generation path.) -/
theorem C3_amended_frontside_plain_lookup (fm : FieldMap) (a b : Str)
    (h : lb ∉ a) :
    renderTemplate (a ++ frontSideTok ++ b) fm =
      a ++ fieldsGet fm (("FrontSide").data) ++ renderTemplate b fm := by
  unfold renderTemplate
  exact renderTemplate_fs_aux fm a b _ h le_rfl

theorem C3_amended_witness :
    lb ∉ ((("X").data) : Str) ∧
    renderTemplate ((("X").data) ++ frontSideTok ++ (("Y").data))
        [((("Back").data), (("B").data))] =
      (("X").data) ++
        fieldsGet [((("Back").data), (("B").data))] (("FrontSide").data) ++
        renderTemplate (("Y").data) [((("Back").data), (("B").data))] :=
  ⟨by decide,
   C3_amended_frontside_plain_lookup [((("Back").data), (("B").data))]
     (("X").data) (("Y").data) (by decide)⟩

/-- C4 (counterexample).  The `ifFieldNonEmpty` gate is checked before the
cloze branch, so a gated cloze template whose gate field is blank produces
zero drafts even though the marker `c1` appears in the `Text` field —
refuting "a card exists for ordinal N iff such a marker appears" as stated
for every cloze template. -/
theorem C4_counterexample_gated_cloze_skipped :
    cardsForTemplate exGatedClozeTemplate exGatedClozeNote 1 0 = [] ∧
    extractClozeOrdinals
        (fieldsGet exGatedClozeNote.fieldMap (("Text").data)) = [1] := by
  decide

/-- C4 (amended).  For every cloze template whose `ifFieldNonEmpty` gate
passes (unset, or the named field non-blank after trimming), compilation
produces exactly one draft per distinct valid positive ordinal of the note's
`Text` field, in strictly ascending order (hence duplicates collapsed), and
an ordinal is produced iff a `\x7b\x7bcN::…\x7d\x7d` marker with that valid
positive N appears in the text. -/
theorem C4_amended_cloze_drafts_per_ordinal (t : CardTemplate) (n : Note)
    (deckID now : Int) (hcloze : t.isCloze = true)
    (hgate : t.ifFieldNonEmpty = [] ∨
      trimSpace (fieldsGet n.fieldMap t.ifFieldNonEmpty) ≠ []) :
    (cardsForTemplate t n deckID now =
      (extractClozeOrdinals (fieldsGet n.fieldMap (("Text").data))).map
        (fun ord =>
          { id := 0, noteId := n.id, deckId := deckID, templateName := t.name,
            ordinal := ord,
            front := renderTemplateWithCloze t.qFmt n.fieldMap ord false,
            back := renderTemplateWithCloze t.aFmt n.fieldMap ord true,
            srs := now, flag := 0, marked := false, suspended := false,
            usn := 0 })) ∧
    (extractClozeOrdinals (fieldsGet n.fieldMap (("Text").data))).Pairwise (· < ·) ∧
    ∀ N, (N ∈ extractClozeOrdinals (fieldsGet n.fieldMap (("Text").data)) ↔
      ∃ g ∈ clozeFindAll (fieldsGet n.fieldMap (("Text").data)),
        clozeOrdOf g = some N) := by
  have hnot : ¬ (t.ifFieldNonEmpty ≠ [] ∧
      trimSpace (fieldsGet n.fieldMap t.ifFieldNonEmpty) = []) := by
    rcases hgate with h | h
    · intro hc
      exact hc.1 h
    · intro hc
      exact h hc.2
  refine ⟨?_, ?_, fun N => mem_extractClozeOrdinals⟩
  · unfold cardsForTemplate
    rw [if_neg hnot, if_pos hcloze]
  · exact pairwise_sortDedup

theorem C4_amended_witness :
    (exClozeTemplate.isCloze = true) ∧
    (exClozeTemplate.ifFieldNonEmpty = [] ∨
      trimSpace (fieldsGet exClozeNote.fieldMap exClozeTemplate.ifFieldNonEmpty) ≠ []) ∧
    ((cardsForTemplate exClozeTemplate exClozeNote 1 0 =
      (extractClozeOrdinals (fieldsGet exClozeNote.fieldMap (("Text").data))).map
        (fun ord =>
          { id := 0, noteId := exClozeNote.id, deckId := 1,
            templateName := exClozeTemplate.name, ordinal := ord,
            front := renderTemplateWithCloze exClozeTemplate.qFmt
              exClozeNote.fieldMap ord false,
            back := renderTemplateWithCloze exClozeTemplate.aFmt
              exClozeNote.fieldMap ord true,
            srs := 0, flag := 0, marked := false, suspended := false,
            usn := 0 })) ∧
    (extractClozeOrdinals (fieldsGet exClozeNote.fieldMap (("Text").data))).Pairwise (· < ·) ∧
    ∀ N, (N ∈ extractClozeOrdinals (fieldsGet exClozeNote.fieldMap (("Text").data)) ↔
      ∃ g ∈ clozeFindAll (fieldsGet exClozeNote.fieldMap (("Text").data)),
        clozeOrdOf g = some N)) :=
  ⟨by decide, Or.inl (by decide),
   C4_amended_cloze_drafts_per_ordinal exClozeTemplate exClozeNote 1 0
     (by decide) (Or.inl (by decide))⟩

/-- C5.  A non-cloze template produces a card iff its gate is unset or the
named field is non-blank after trimming; when produced it is exactly one
draft with ordinal 0, front the rendered qFmt and back the rendered aFmt;
and a gate-skipped template leaves the other templates' cards unchanged. -/
theorem C5_noncloze_gate_iff_single_draft (t : CardTemplate) (n : Note)
    (deckID now : Int) (h : t.isCloze = false) :
    (cardsForTemplate t n deckID now ≠ [] ↔
      (t.ifFieldNonEmpty = [] ∨
        trimSpace (fieldsGet n.fieldMap t.ifFieldNonEmpty) ≠ [])) ∧
    ((t.ifFieldNonEmpty = [] ∨
        trimSpace (fieldsGet n.fieldMap t.ifFieldNonEmpty) ≠ []) →
      cardsForTemplate t n deckID now =
        [{ id := 0, noteId := n.id, deckId := deckID, templateName := t.name,
           ordinal := 0, front := renderTemplate t.qFmt n.fieldMap,
           back := renderTemplate t.aFmt n.fieldMap, srs := now, flag := 0,
           marked := false, suspended := false, usn := 0 }]) ∧
    (∀ ts₁ ts₂ : List CardTemplate,
      (t.ifFieldNonEmpty ≠ [] ∧
        trimSpace (fieldsGet n.fieldMap t.ifFieldNonEmpty) = []) →
      cardsForTemplates (ts₁ ++ t :: ts₂) n deckID now =
        cardsForTemplates (ts₁ ++ ts₂) n deckID now) := by
  refine ⟨?_, ?_, ?_⟩
  · unfold cardsForTemplate
    by_cases hg : t.ifFieldNonEmpty ≠ [] ∧
        trimSpace (fieldsGet n.fieldMap t.ifFieldNonEmpty) = []
    · rw [if_pos hg]
      simp only [ne_eq, not_true_eq_false, false_iff]
      push_neg
      exact hg
    · rw [if_neg hg, h]
      simp only [Bool.false_eq_true, if_false]
      push_neg at hg
      constructor
      · intro _
        by_cases he : t.ifFieldNonEmpty = []
        · exact Or.inl he
        · exact Or.inr (hg he)
      · intro _
        simp
  · intro hgate
    have hnot : ¬ (t.ifFieldNonEmpty ≠ [] ∧
        trimSpace (fieldsGet n.fieldMap t.ifFieldNonEmpty) = []) := by
      rcases hgate with h1 | h1
      · intro hc
        exact hc.1 h1
      · intro hc
        exact h1 hc.2
    unfold cardsForTemplate
    rw [if_neg hnot, h]
    simp
  · intro ts₁ ts₂ hskip
    have hempty : cardsForTemplate t n deckID now = [] := by
      unfold cardsForTemplate
      rw [if_pos hskip]
    unfold cardsForTemplates
    simp [hempty]

theorem C5_witness :
    (exBasicTemplate.isCloze = false) ∧
    ((cardsForTemplate exBasicTemplate exNote 1 0 ≠ [] ↔
      (exBasicTemplate.ifFieldNonEmpty = [] ∨
        trimSpace (fieldsGet exNote.fieldMap exBasicTemplate.ifFieldNonEmpty) ≠ [])) ∧
    ((exBasicTemplate.ifFieldNonEmpty = [] ∨
        trimSpace (fieldsGet exNote.fieldMap exBasicTemplate.ifFieldNonEmpty) ≠ []) →
      cardsForTemplate exBasicTemplate exNote 1 0 =
        [{ id := 0, noteId := exNote.id, deckId := 1,
           templateName := exBasicTemplate.name, ordinal := 0,
           front := renderTemplate exBasicTemplate.qFmt exNote.fieldMap,
           back := renderTemplate exBasicTemplate.aFmt exNote.fieldMap,
           srs := 0, flag := 0, marked := false, suspended := false,
           usn := 0 }]) ∧
    (∀ ts₁ ts₂ : List CardTemplate,
      (exBasicTemplate.ifFieldNonEmpty ≠ [] ∧
        trimSpace (fieldsGet exNote.fieldMap exBasicTemplate.ifFieldNonEmpty) = []) →
      cardsForTemplates (ts₁ ++ exBasicTemplate :: ts₂) exNote 1 0 =
        cardsForTemplates (ts₁ ++ ts₂) exNote 1 0)) :=
  ⟨by decide, C5_noncloze_gate_iff_single_draft exBasicTemplate exNote 1 0 (by decide)⟩

/-- C6 (counterexample).  The code compares the target against
`strconv.Atoi` of the numeral with the error ignored, which clamps an
out-of-range numeral to 2^63 - 1.  The ordinal 2^63 - 1 is itself a valid,
extractable target; a second occurrence whose numeral N is the different
value 2^64 + 383 is clamped to the target and masked as `[...]` — the claim
requires its literal answer `b`, unmasked. -/
theorem C6_counterexample_overflow_ordinal_masked :
    extractClozeOrdinals exC6OverText = [9223372036854775807] ∧
    digitsToNat (("18446744073709551999").data) ≠ 9223372036854775807 ∧
    renderCloze exC6OverText 9223372036854775807 false =
      ("[...] [...]").data ∧
    (("[...] [...]").data : Str) ≠ ("[...] b").data := by
  decide

/-- C6 (amended).  `renderCloze` rewrites exactly the occurrences of the
`clozeRe` scan, deciding by the occurrence's parsed ordinal — `strconv.Atoi`
of the numeral with the error ignored, so an out-of-range numeral is clamped
to 2^63 - 1: an occurrence whose parsed ordinal equals the target is
replaced on the back (reveal) by the emphasized answer and on the front by
`[hint]` for a non-blank hint, else `[...]`; every occurrence whose parsed
ordinal differs from the target is replaced by its literal answer on both
sides.  The spec's example text behaves accordingly. -/
theorem C6_renderCloze_masks_only_target (text : Str) (target : Nat)
    (reveal : Bool) :
    (renderCloze text target reveal =
      (clozeSplit text).flatMap (fun seg =>
        match seg with
        | ClozeSeg.lit s => s
        | ClozeSeg.occ ds ans hint =>
          if atoiClamp ds = target then
            if reveal then ("**").data ++ ans ++ ("**").data
            else if trimSpace hint ≠ [] then '[' :: hint ++ [']']
            else ("[...]").data
          else ans)) ∧
    renderCloze exC6Text 1 false = ("The [...] of France is Paris").data ∧
    renderCloze exC6Text 1 true = ("The **capital** of France is Paris").data := by
  refine ⟨?_, by decide, by decide⟩
  rw [clozeSplit_flatMap text _ (fun s => rfl)]
  unfold renderCloze
  have hcb : (fun (g : Str × Str × Str) =>
      (fun seg =>
        match seg with
        | ClozeSeg.lit s => s
        | ClozeSeg.occ ds ans hint =>
          if atoiClamp ds = target then
            if reveal then ("**").data ++ ans ++ ("**").data
            else if trimSpace hint ≠ [] then '[' :: hint ++ [']']
            else ("[...]").data
          else ans) (ClozeSeg.occ g.1 g.2.1 g.2.2))
      = goClozeCallback target reveal := by
    funext g
    obtain ⟨ds, ans, hint⟩ := g
    simp only [goClozeCallback]
    cases reveal <;> by_cases ho : atoiClamp ds = target <;> simp [ho]
  rw [hcb]

/-- C7 (counterexample).  Cards created during reconciliation keep the
draft's zero id — here two cards with distinct keys both carry id 0, so no
fresh id is allocated — and their deckId is the caller-supplied deck 1 even
though the generating template carries the deck override `Other`. -/
theorem C7_counterexample_created_cards_share_zero_id :
    ((regenerateNote exOvrNT exClozeNote [] 5).toCreate.map
        (fun c => (c.ordinal, c.id, c.deckId)) = [(1, 0, 1), (2, 0, 1)]) ∧
    exOvrTemplate.deckOverride = ("Other").data := by
  decide

/-- C7 (amended).  A draft whose key has no existing card is handed to
`CreateCard` exactly as compiled: id 0 (no allocation on this path),
scheduling state the fresh state seeded at `now`, and deckId the
caller-supplied deck of the regeneration loop (the first existing card's
deck, else deck 1); the template's deckOverride is never consulted. -/
theorem C7_amended_create_keeps_draft_identity (nt : NoteType) (note : Note)
    (store : List Card) (now : Int) (c : Card)
    (h : c ∈ (regenerateNote nt note store now).toCreate) :
    c.id = 0 ∧ c.srs = now ∧ c.deckId = regenDeckID store note ∧
      c ∈ regenDrafts nt note store now := by
  rw [regenerateNote_toCreate] at h
  have hinv := regenFold_inv (getCardsByNote store note.id)
    (regenDrafts nt note store now) (regenDrafts nt note store now)
    (store, buildMap (getCardsByNote store note.id), [], [])
    (fun d hd => hd) (buildMap_ok _)
    (by intro c hc; simp at hc) (by intro u hu; simp at hu)
  have hd : c ∈ regenDrafts nt note store now := hinv.2.1 c h
  have hfields :=
    @cardsForTemplates_fields nt.templates note (regenDeckID store note) now c hd
  exact ⟨hfields.1, hfields.2.2.2.1, hfields.2.2.1, hd⟩

theorem C7_amended_witness :
    exOvrCard1 ∈ (regenerateNote exOvrNT exClozeNote [] 5).toCreate ∧
    (exOvrCard1.id = 0 ∧ exOvrCard1.srs = 5 ∧
      exOvrCard1.deckId = regenDeckID [] exClozeNote ∧
      exOvrCard1 ∈ regenDrafts exOvrNT exClozeNote [] 5) :=
  ⟨by decide,
   C7_amended_create_keeps_draft_identity exOvrNT exClozeNote [] 5 exOvrCard1
     (by decide)⟩

/-- C8.  The duplicate check compares trimmed, lower-cased values for exact
equality (the `"  Hello  "` query matches the stored `"hello"`), and a
literally empty value short-circuits in the HTTP handler; but an
all-whitespace value reaches `FindDuplicateNotes`, normalizes to the empty
string, and matches a stored note whose field value is blank — the result
is not empty, contradicting the claim and the intent recorded in
`TestFindDuplicateNotesEmptyValue`. -/
theorem C8_whitespace_value_matches_blank_field :
    checkDuplicate [exBlankNote] [] (("Front").data) (("   ").data) 0 =
      [{ id := 1, typeId := ("Basic").data,
         fieldVals := [((("Front").data), [])] }] ∧
    checkDuplicate [exHelloNote] [] (("Front").data) (("  Hello  ").data) 0 =
      [{ id := 2, typeId := ("Basic").data,
         fieldVals := [((("Front").data), (("hello").data))] }] ∧
    checkDuplicate [exBlankNote] [] (("Front").data) [] 0 = [] := by
  decide

/-- C9 (counterexample).  Removing the field `Extra` from a note type whose
template is gated on it leaves the template's `ifFieldNonEmpty` equal to
`Extra` — the gate is not cleared, so the template does not become
unconditional. -/
theorem C9_counterexample_gate_not_cleared :
    ((removeField exGateNT (("Extra").data)).map
        (fun r => r.templates.map (fun t => t.ifFieldNonEmpty)) =
      some [("Extra").data]) ∧
    ((("Extra").data : Str) ≠ []) := by
  decide

/-- C9 (amended).  A successful `RemoveField` removes the field from the
note type's field list and leaves every template — including any
`ifFieldNonEmpty` gate equal to the removed field — completely unchanged;
no gate is cleared. -/
theorem C9_amended_remove_field_leaves_templates (nt : NoteType) (f : Str)
    (h1 : f ≠ []) (h2 : 1 < nt.fields.length) (h3 : f ∈ nt.fields) :
    removeField nt f =
      some { nt with fields := nt.fields.filter (fun g => g ≠ f) } ∧
    ∀ nt', removeField nt f = some nt' →
      nt'.templates = nt.templates ∧
      nt'.fields = nt.fields.filter (fun g => g ≠ f) := by
  have hany : nt.fields.any (fun g => g = f) = true := by
    rw [List.any_eq_true]
    exact ⟨f, h3, by simp⟩
  have hmain : removeField nt f =
      some { nt with fields := nt.fields.filter (fun g => g ≠ f) } := by
    unfold removeField
    rw [if_neg h1, if_neg (by omega), if_pos hany]
  refine ⟨hmain, fun nt' h => ?_⟩
  rw [hmain] at h
  rw [Option.some.injEq] at h
  subst h
  exact ⟨rfl, rfl⟩

theorem C9_amended_witness :
    ((("Extra").data : Str) ≠ []) ∧ 1 < exGateNT.fields.length ∧
    (("Extra").data ∈ exGateNT.fields) ∧
    (removeField exGateNT (("Extra").data) =
      some { exGateNT with
             fields := exGateNT.fields.filter (fun g => g ≠ ("Extra").data) } ∧
    ∀ nt', removeField exGateNT (("Extra").data) = some nt' →
      nt'.templates = exGateNT.templates ∧
      nt'.fields = exGateNT.fields.filter (fun g => g ≠ ("Extra").data)) :=
  ⟨by decide, by decide, by decide,
   C9_amended_remove_field_leaves_templates exGateNT (("Extra").data)
     (by decide) (by decide) (by decide)⟩

/-- C10.  Every successful `AddNote` bumps the collection USN by exactly
one and stamps the created note and every generated card with that same new
value. -/
theorem C10_addNote_usn_stamping (c : Collection) (deckID : Int)
    (ntName : Str) (fields : FieldMap) (now : Int) (c' : Collection)
    (n : Note) (cards : List Card)
    (h : addNote c deckID ntName fields now = some (c', n, cards)) :
    c'.usn = c.usn + 1 ∧ n.usn = c'.usn ∧
      ∀ card ∈ cards, card.usn = c'.usn := by
  unfold addNote at h
  cases hnt : lookupAssoc c.noteTypes ntName with
  | none =>
    rw [hnt] at h
    simp at h
  | some nt =>
    rw [hnt] at h
    rw [Option.some.injEq, Prod.mk.injEq, Prod.mk.injEq] at h
    obtain ⟨h1, h2, h3⟩ := h
    subst h1
    subst h2
    subst h3
    refine ⟨rfl, rfl, ?_⟩
    intro card hcard
    exact addNoteCards_out_usn (c.usn + 1) deckID _ _
      (by intro x hx; simp at hx) card hcard

theorem C10_witness :
    addNote exColl 1 (("Basic").data) exNote.fieldMap 0 =
      some (exCollAfter, exNoteAfter, [exCardAfter]) ∧
    (exCollAfter.usn = exColl.usn + 1 ∧ exNoteAfter.usn = exCollAfter.usn ∧
      ∀ card ∈ [exCardAfter], card.usn = exCollAfter.usn) :=
  ⟨by decide,
   C10_addNote_usn_stamping exColl 1 (("Basic").data) exNote.fieldMap 0
     exCollAfter exNoteAfter [exCardAfter] (by decide)⟩

end Microdote
